import Mathlib

/-!
Verification of the a1tools core: the availability supervisor
(`service_helper/a1_service_helper.cpp`) and the cross-process
window-visibility controller (`windows/runner/privacy_injector.cpp`),
via a shallow embedding of the C++ sources.

Wide strings are modelled as `List Char`; FILETIME values as `Nat`
counts of 100 ns ticks; the two marker files as `Option Nat` last-write
times; Windows handles and addresses as `Nat`.  Unsigned 64-bit
arithmetic is made explicit with `sub64`.  OS interactions are supplied
by explicit environment records and the observable side effects of each
operation are returned as an action trace.
-/

namespace A1Tools

/-- Wrap-around subtraction of unsigned 64-bit values (ULONGLONG). -/
def sub64 (a b : Nat) : Nat := (a % 2 ^ 64 + (2 ^ 64 - b % 2 ^ 64)) % 2 ^ 64

theorem sub64_eq_sub (a b : Nat) (hba : b ≤ a) (ha : a < 2 ^ 64) :
    sub64 a b = a - b := by
  unfold sub64
  have hb : b < 2 ^ 64 := lt_of_le_of_lt hba ha
  rw [Nat.mod_eq_of_lt ha, Nat.mod_eq_of_lt hb]
  omega

/-- Lower-casing of a wide string, modelling per-character towlower. -/
def toLowerW (s : List Char) : List Char := s.map Char.toLower

/-- Prefix test on wide strings (needle, hay). -/
def isPrefixOfW : List Char → List Char → Bool
  | [], _ => true
  | _ :: _, [] => false
  | a :: as, b :: bs => a == b && isPrefixOfW as bs

/-- Substring containment, modelling std::wstring find(needle) != npos. -/
def containsW (hay needle : List Char) : Bool :=
  match hay with
  | [] => needle.isEmpty
  | _ :: rest => isPrefixOfW needle hay || containsW rest needle

/-! ### Service helper: data model -/

/-- Filesystem state seen by the service helper: last-write times (in
FILETIME ticks) of the two marker files, `none` when absent. -/
structure HelperFs where
  updateMarker : Option Nat
  restartMarker : Option Nat
deriving DecidableEq

/-- Observable events of one supervisor cycle. -/
inductive HelperEvent where
  | staleUpdateDelete
  | staleRestartDelete
  | createRestartLock
  | launchAttempt
  | removeRestartLock
deriving DecidableEq

/-- UPDATE_LOCK_TIMEOUT_MINUTES from the source. -/
def UPDATE_LOCK_TIMEOUT_MINUTES : Nat := 10

/-- RESTART_LOCK_TIMEOUT_SECONDS from the source. -/
def RESTART_LOCK_TIMEOUT_SECONDS : Nat := 30

/-- Environment of one supervisor cycle: the clock, the process-table
snapshot, the app mutex, and the outcome of the launch attempt. -/
structure HelperEnv where
  now : Nat
  procList : List (List Char)
  appMutexHeld : Bool
  exeExists : Bool
  launchSucceeds : Bool
  procListAfter : List (List Char)
  appMutexHeldAfter : Bool

/-! ### Service helper: operations (from a1_service_helper.cpp) -/

/-- IsUpdateInProgress: absent file is inactive; a stale file (whole-minute
age strictly above the timeout) is deleted and inactive; otherwise active. -/
def IsUpdateInProgress (now : Nat) (fs : HelperFs) : Bool × HelperFs × List HelperEvent :=
  match fs.updateMarker with
  | none => (false, fs, [])
  | some lockTime =>
    if sub64 now lockTime / (10000000 * 60) > UPDATE_LOCK_TIMEOUT_MINUTES then
      (false, { fs with updateMarker := none }, [.staleUpdateDelete])
    else
      (true, fs, [])

/-- IsRestartPending: same shape as IsUpdateInProgress with a whole-second
age and a 30-second timeout. -/
def IsRestartPending (now : Nat) (fs : HelperFs) : Bool × HelperFs × List HelperEvent :=
  match fs.restartMarker with
  | none => (false, fs, [])
  | some lockTime =>
    if sub64 now lockTime / 10000000 > RESTART_LOCK_TIMEOUT_SECONDS then
      (false, { fs with restartMarker := none }, [.staleRestartDelete])
    else
      (true, fs, [])

/-- The fixed allow-list of installer executable-name substrings. -/
def installerNames : List (List Char) :=
  ["a1-tools-setup".data, "a1tools_update".data, "a1_tools_setup".data,
   "A1-Tools-Setup".data]

/-- IsInstallerRunning: case-insensitive substring match of any allow-list
entry against any executable name in the snapshot. -/
def IsInstallerRunning (procList : List (List Char)) : Bool :=
  procList.any fun procName =>
    installerNames.any fun inst =>
      containsW (toLowerW procName) (toLowerW inst)

/-- APP_EXE_NAME from the source. -/
def APP_EXE_NAME : List Char := "a1_tools.exe".data

/-- Case-insensitive string equality, modelling _wcsicmp == 0. -/
def wcsicmpEq (a b : List Char) : Bool := toLowerW a == toLowerW b

/-- IsAppRunning: the app mutex is openable, or the executable name appears
in the process snapshot (case-insensitive exact match). -/
def IsAppRunning (mutexHeld : Bool) (procList : List (List Char)) : Bool :=
  mutexHeld || procList.any fun exeFile => wcsicmpEq exeFile APP_EXE_NAME

/-- CreateRestartLock: unconditionally (over)writes the restart marker. -/
def CreateRestartLock (now : Nat) (fs : HelperFs) : HelperFs × List HelperEvent :=
  ({ fs with restartMarker := some now }, [.createRestartLock])

/-- RemoveRestartLock: deletes the restart marker, tolerating absence. -/
def RemoveRestartLock (fs : HelperFs) : HelperFs × List HelperEvent :=
  ({ fs with restartMarker := none }, [.removeRestartLock])

/-- RecoverApp: create the restart marker; abort (removing it) when the app
executable is missing; otherwise attempt the launch, re-check liveness on
success (log only), and remove the marker on every path. -/
def RecoverApp (env : HelperEnv) (fs : HelperFs) : HelperFs × List HelperEvent :=
  let r1 := CreateRestartLock env.now fs
  if env.exeExists = false then
    let r2 := RemoveRestartLock r1.1
    (r2.1, r1.2 ++ r2.2)
  else
    if env.launchSucceeds then
      let _ := IsAppRunning env.appMutexHeldAfter env.procListAfter
      let r2 := RemoveRestartLock r1.1
      (r2.1, r1.2 ++ [HelperEvent.launchAttempt] ++ r2.2)
    else
      let r2 := RemoveRestartLock r1.1
      (r2.1, r1.2 ++ [HelperEvent.launchAttempt] ++ r2.2)

/-- PerformCheck: one supervisor cycle, skipping on an active update marker,
an active restart marker, a running installer, or a detected app. -/
def PerformCheck (env : HelperEnv) (fs : HelperFs) : HelperFs × List HelperEvent :=
  let r1 := IsUpdateInProgress env.now fs
  if r1.1 then (r1.2.1, r1.2.2)
  else
    let r2 := IsRestartPending env.now r1.2.1
    if r2.1 then (r2.2.1, r1.2.2 ++ r2.2.2)
    else if IsInstallerRunning env.procList then (r2.2.1, r1.2.2 ++ r2.2.2)
    else if IsAppRunning env.appMutexHeld env.procList then (r2.2.1, r1.2.2 ++ r2.2.2)
    else
      let r3 := RecoverApp env r2.2.1
      (r3.1, r1.2.2 ++ r2.2.2 ++ r3.2)

/-! ### Privacy injector: data model (from privacy_injector.h / .cpp) -/

/-- State of the PrivacyInjector singleton: the payload DLL path, the
injection-record map (PID to remote module handle, a DWORD thread exit
code), the hidden-state map (lower-cased name to hidden flag), and the
initialization flag set by a successful initialization. -/
structure IState where
  payload_dll_path : List Char
  injected_processes : List (Nat × Nat)
  hidden_process_names : List (List Char × Bool)
  initialized : Bool
deriving DecidableEq

/-- Observable actions of the injector: an invocation of the public
hide/show operation, and the per-process OS operations it attempts. -/
inductive IAct where
  | call (processName : List Char) (hide : Bool)
  | openProcess (pid : Nat)
  | virtualAlloc (pid : Nat)
  | writeMemory (pid : Nat)
  | createRemoteThread (pid : Nat) (startAddr : Nat)
deriving DecidableEq

/-- OS environment of the injector: the process-table snapshot, the
visible top-level windows of each process, the outcome of each remote
operation, and the local/remote module geometry. -/
structure IEnv where
  procTable : List (Nat × List Char)
  windows : Nat → List Nat
  openOk : Nat → Bool
  allocOk : Nat → Bool
  writeOk : Nat → Bool
  loadLibraryAddr : Option Nat
  createThreadOk : Nat → Bool
  loadWaitTimesOut : Nat → Bool
  loadExitCode : Nat → Nat
  targetModules : Nat → List (List Char × Nat)
  callOpenOk : Nat → Bool
  localLoadBase : Option Nat
  localHideAllAddr : Option Nat
  callCreateThreadOk : Nat → Bool
  callWaitTimesOut : Nat → Bool
  callExitCode : Nat → Nat

/-- GetExitCodeThread on a thread still running after a timed-out wait
reports STILL_ACTIVE, the numeric value 259. -/
def STILL_ACTIVE : Nat := 259

/-- Association-list lookup (std::map find). -/
def alookup {α β : Type} [DecidableEq α] : List (α × β) → α → Option β
  | [], _ => none
  | (k, v) :: rest, key => if k = key then some v else alookup rest key

/-- Association-list assignment (std::map operator[] plus assignment):
replaces the value of an existing key, appends a fresh key. -/
def aset {α β : Type} [DecidableEq α] : List (α × β) → α → β → List (α × β)
  | [], key, val => [(key, val)]
  | (k, v) :: rest, key, val =>
    if k = key then (k, val) :: rest else (k, v) :: aset rest key val

/-! ### Privacy injector: operations (from privacy_injector.cpp) -/

/-- ToLowerCase from the source. -/
def ToLowerCase (str : List Char) : List Char := str.map Char.toLower

/-- Models PrivacyInjector's initialization entry point: verifies the
payload exists on disk (per the `fileExistsAt` oracle), then records the
path and sets the flag; loads nothing. -/
def InitializeController (fileExistsAt : List Char → Bool) (st : IState)
    (payloadDllPath : List Char) : Bool × IState :=
  if fileExistsAt payloadDllPath = false then (false, st)
  else (true, { st with payload_dll_path := payloadDllPath, initialized := true })

/-- The query normalization inside GetProcessIdsByName: lower-case, then
append ".exe" unless ".exe" already occurs as a substring. -/
def normalizeProcessName (processName : List Char) : List Char :=
  let lowerName := ToLowerCase processName
  if containsW lowerName ".exe".data then lowerName else lowerName ++ ".exe".data

/-- GetProcessIdsByName: normalized query matched against each lower-cased
executable name by equality or substring containment, in snapshot order. -/
def GetProcessIdsByName (procTable : List (Nat × List Char))
    (processName : List Char) : List Nat :=
  let lowerName := normalizeProcessName processName
  (procTable.filter fun entry =>
    ToLowerCase entry.2 == lowerName || containsW (ToLowerCase entry.2) lowerName).map
    Prod.fst

/-- GetProcessWindows: the visible top-level windows owned by a PID. -/
def GetProcessWindows (env : IEnv) (pid : Nat) : List Nat := env.windows pid

/-- InjectDll: no-op success when a record already exists; otherwise open
the target, allocate and write the path, resolve LoadLibraryW, start a
remote thread at it, wait (bounded), and interpret the thread exit code as
the in-target module base, recording it when nonzero.  A timed-out wait
leaves the exit code at STILL_ACTIVE. -/
def InjectDll (env : IEnv) (st : IState) (pid : Nat) : Bool × IState × List IAct :=
  if st.payload_dll_path.isEmpty then (false, st, [])
  else if (alookup st.injected_processes pid).isSome then (true, st, [])
  else if env.openOk pid = false then (false, st, [.openProcess pid])
  else if env.allocOk pid = false then (false, st, [.openProcess pid, .virtualAlloc pid])
  else if env.writeOk pid = false then
    (false, st, [.openProcess pid, .virtualAlloc pid, .writeMemory pid])
  else
    match env.loadLibraryAddr with
    | none => (false, st, [.openProcess pid, .virtualAlloc pid, .writeMemory pid])
    | some loadLibrary =>
      if env.createThreadOk pid = false then
        (false, st, [.openProcess pid, .virtualAlloc pid, .writeMemory pid,
          .createRemoteThread pid loadLibrary])
      else
        let exitCode :=
          if env.loadWaitTimesOut pid then STILL_ACTIVE else env.loadExitCode pid % 2 ^ 32
        let acts : List IAct := [.openProcess pid, .virtualAlloc pid, .writeMemory pid,
          .createRemoteThread pid loadLibrary]
        if exitCode ≠ 0 then
          (true, { st with injected_processes := aset st.injected_processes pid exitCode },
            acts)
        else (false, st, acts)

/-- The file-name needle used to locate the payload module in the target. -/
def PAYLOAD_DLL_NEEDLE : List Char := "privacy_payload.dll".data

/-- CallSetWindowVisibility: ensure injection, reopen the target, locate
the payload module base by enumerating the target's modules, compute the
entry-point offset from a fresh local load, start a remote thread at the
enumerated base plus that offset, wait (bounded), and report success when
the exit code is positive.  A timed-out wait leaves STILL_ACTIVE. -/
def CallSetWindowVisibility (env : IEnv) (st : IState) (pid : Nat) (hwnd : Nat)
    (hide : Bool) : Bool × IState × List IAct :=
  let _ := hwnd
  let _ := hide
  let r := InjectDll env st pid
  if r.1 = false then (false, r.2.1, r.2.2)
  else if env.callOpenOk pid = false then (false, r.2.1, r.2.2 ++ [.openProcess pid])
  else
    match (env.targetModules pid).find? (fun m => containsW m.1 PAYLOAD_DLL_NEEDLE) with
    | none => (false, r.2.1, r.2.2 ++ [.openProcess pid])
    | some targetModule =>
      match env.localLoadBase with
      | none => (false, r.2.1, r.2.2 ++ [.openProcess pid])
      | some localDll =>
        match env.localHideAllAddr with
        | none => (false, r.2.1, r.2.2 ++ [.openProcess pid])
        | some localHideAll =>
          let hideAllOffset := sub64 localHideAll localDll
          let remoteHideAll := (targetModule.2 + hideAllOffset) % 2 ^ 64
          if env.callCreateThreadOk pid = false then
            (false, r.2.1, r.2.2 ++ [.openProcess pid, .createRemoteThread pid remoteHideAll])
          else
            let exitCode :=
              if env.callWaitTimesOut pid then STILL_ACTIVE else env.callExitCode pid % 2 ^ 32
            (decide (exitCode > 0), r.2.1,
              r.2.2 ++ [.openProcess pid, .createRemoteThread pid remoteHideAll])

/-- HideProcessWindowsByPid: fail immediately when the target has no
visible windows, else run the remote-call protocol (the first window
handle is passed but unused by the remote call). -/
def HideProcessWindowsByPid (env : IEnv) (st : IState) (pid : Nat) (hide : Bool) :
    Bool × IState × List IAct :=
  let windows := GetProcessWindows env pid
  if windows.isEmpty then (false, st, [])
  else CallSetWindowVisibility env st pid (windows.headD 0) hide

/-- One iteration of HideProcessWindows's per-PID loop: attempt the
per-PID operation, count it when it reports success, thread the state and
accumulate the trace. -/
def hideStep (env : IEnv) (hide : Bool) (acc : Nat × IState × List IAct) (pid : Nat) :
    Nat × IState × List IAct :=
  let r := HideProcessWindowsByPid env acc.2.1 pid hide
  (acc.1 + (if r.1 then 1 else 0), r.2.1, acc.2.2 ++ r.2.2)

/-- HideProcessWindows: resolve the name to PIDs, attempt the per-PID
operation for each, count successes, and record the lower-cased name in
the hidden-state map only when at least one PID was affected. -/
def HideProcessWindows (env : IEnv) (st : IState) (processName : List Char)
    (hide : Bool) : Nat × IState × List IAct :=
  if st.initialized = false then (0, st, [.call processName hide])
  else
    let lowerName := ToLowerCase processName
    let pids := GetProcessIdsByName env.procTable processName
    let folded := pids.foldl (hideStep env hide) (0, st, [])
    let stF :=
      if folded.1 > 0 then
        { folded.2.1 with
          hidden_process_names := aset folded.2.1.hidden_process_names lowerName hide }
      else folded.2.1
    (folded.1, stF, IAct.call processName hide :: folded.2.2)

/-- GetHiddenProcesses: the names currently mapped to true. -/
def GetHiddenProcesses (st : IState) : List (List Char) :=
  (st.hidden_process_names.filter fun pair => pair.2).map Prod.fst

/-- IsProcessHidden: the lower-cased name is present and mapped to true. -/
def IsProcessHidden (st : IState) (processName : List Char) : Bool :=
  match alookup st.hidden_process_names (ToLowerCase processName) with
  | some b => b
  | none => false

/-- One iteration of RestoreAll's loop: when the entry for `name` is
currently marked hidden, re-invoke the show operation and thread the
state and trace. -/
def restoreStep (env : IEnv) (acc : IState × List IAct) (name : List Char) :
    IState × List IAct :=
  if alookup acc.1.hidden_process_names name = some true then
    let r := HideProcessWindows env acc.1 name false
    (r.2.1, acc.2 ++ r.2.2)
  else acc

/-- RestoreAll: iterate the hidden-state map (its key sequence is stable:
entries are keyed by lower-cased names, so each re-invocation assigns an
existing key), re-invoking the show operation for every entry currently
marked hidden, then clear both maps. -/
def RestoreAll (env : IEnv) (st : IState) : IState × List IAct :=
  let iterated := (st.hidden_process_names.map Prod.fst).foldl (restoreStep env) (st, [])
  ({ iterated.1 with hidden_process_names := [], injected_processes := [] }, iterated.2)

/-! ### Service helper: supporting lemmas -/

theorem IsUpdateInProgress_restartMarker (now : Nat) (fs : HelperFs) :
    (IsUpdateInProgress now fs).2.1.restartMarker = fs.restartMarker := by
  unfold IsUpdateInProgress
  rcases h : fs.updateMarker with _ | t <;> simp [h]
  split <;> rfl

theorem IsRestartPending_fst_congr (now : Nat) (fs fs' : HelperFs)
    (h : fs.restartMarker = fs'.restartMarker) :
    (IsRestartPending now fs).1 = (IsRestartPending now fs').1 := by
  unfold IsRestartPending
  rw [h]
  rcases hm : fs'.restartMarker with _ | t <;> simp [hm]
  split <;> rfl

theorem IsUpdateInProgress_trace (now : Nat) (fs : HelperFs) :
    (IsUpdateInProgress now fs).2.2 = [] ∨
    (IsUpdateInProgress now fs).2.2 = [HelperEvent.staleUpdateDelete] := by
  unfold IsUpdateInProgress
  rcases h : fs.updateMarker with _ | t <;> simp [h]
  split <;> simp

theorem IsRestartPending_trace (now : Nat) (fs : HelperFs) :
    (IsRestartPending now fs).2.2 = [] ∨
    (IsRestartPending now fs).2.2 = [HelperEvent.staleRestartDelete] := by
  unfold IsRestartPending
  rcases h : fs.restartMarker with _ | t <;> simp [h]
  split <;> simp

/-! ### Claim C2 -/

/-- Claim C2, counterexample to the claim as stated: an update marker
whose age (605 seconds, i.e. 10 minutes 5 seconds) strictly exceeds the
10-minute threshold is still reported active and is not deleted, because
the code compares the whole-minute quotient (10) against the threshold. -/
theorem marker_age_exceeds_threshold_still_active :
    10 * 60 * 10000000 < sub64 6050000000 0 ∧
    IsUpdateInProgress 6050000000 { updateMarker := some 0, restartMarker := none } =
      (true, { updateMarker := some 0, restartMarker := none }, []) := by
  constructor
  · decide
  · decide

/-- Claim C2 (amended): for either marker kind, `isActive` returns false
when the file is absent; when the file is present it is stale exactly when
the truncated age (whole minutes for update, whole seconds for restart)
exceeds the threshold, i.e. when the age reaches 11 minutes resp. 31
seconds; a stale file is deleted and reported inactive, and an immediately
repeated call still reports inactive with the file gone; a file younger
than that bound is reported active. -/
theorem lock_marker_staleness (now t : Nat) (fs : HelperFs)
    (hba : t ≤ now) (ha : now < 2 ^ 64) :
    (fs.updateMarker = none → IsUpdateInProgress now fs = (false, fs, [])) ∧
    (fs.updateMarker = some t → 10000000 * 60 * 11 ≤ now - t →
      IsUpdateInProgress now fs =
        (false, { fs with updateMarker := none }, [HelperEvent.staleUpdateDelete]) ∧
      IsUpdateInProgress now { fs with updateMarker := none } =
        (false, { fs with updateMarker := none }, [])) ∧
    (fs.updateMarker = some t → now - t < 10000000 * 60 * 11 →
      IsUpdateInProgress now fs = (true, fs, [])) ∧
    (fs.restartMarker = none → IsRestartPending now fs = (false, fs, [])) ∧
    (fs.restartMarker = some t → 10000000 * 31 ≤ now - t →
      IsRestartPending now fs =
        (false, { fs with restartMarker := none }, [HelperEvent.staleRestartDelete]) ∧
      IsRestartPending now { fs with restartMarker := none } =
        (false, { fs with restartMarker := none }, [])) ∧
    (fs.restartMarker = some t → now - t < 10000000 * 31 →
      IsRestartPending now fs = (true, fs, [])) := by
  have hsub : sub64 now t = now - t := sub64_eq_sub now t hba ha
  refine ⟨?_, ?_, ?_, ?_, ?_, ?_⟩
  · intro h
    unfold IsUpdateInProgress
    rw [h]
  · intro h hstale
    have hc : sub64 now t / (10000000 * 60) > UPDATE_LOCK_TIMEOUT_MINUTES := by
      rw [hsub]; unfold UPDATE_LOCK_TIMEOUT_MINUTES; omega
    constructor
    · unfold IsUpdateInProgress
      rw [h]
      simp [hc]
    · unfold IsUpdateInProgress
      rfl
  · intro h hfresh
    have hc : ¬ sub64 now t / (10000000 * 60) > UPDATE_LOCK_TIMEOUT_MINUTES := by
      rw [hsub]; unfold UPDATE_LOCK_TIMEOUT_MINUTES; omega
    unfold IsUpdateInProgress
    rw [h]
    simp [hc]
  · intro h
    unfold IsRestartPending
    rw [h]
  · intro h hstale
    have hc : sub64 now t / 10000000 > RESTART_LOCK_TIMEOUT_SECONDS := by
      rw [hsub]; unfold RESTART_LOCK_TIMEOUT_SECONDS; omega
    constructor
    · unfold IsRestartPending
      rw [h]
      simp [hc]
    · unfold IsRestartPending
      rfl
  · intro h hfresh
    have hc : ¬ sub64 now t / 10000000 > RESTART_LOCK_TIMEOUT_SECONDS := by
      rw [hsub]; unfold RESTART_LOCK_TIMEOUT_SECONDS; omega
    unfold IsRestartPending
    rw [h]
    simp [hc]

/-- Claim C2, witness: the amended theorem applied to an update marker of
age 700 seconds (stale under the amended bound). -/
theorem lock_marker_staleness_witness :
    IsUpdateInProgress 7000000000 { updateMarker := some 0, restartMarker := none } =
      (false, { updateMarker := none, restartMarker := none },
        [HelperEvent.staleUpdateDelete]) :=
  ((lock_marker_staleness 7000000000 0
      { updateMarker := some 0, restartMarker := none }
      (by decide) (by decide)).2.1 rfl (by decide)).1

/-! ### Claim C9 -/

/-- Claim C9: a supervisor cycle run while the update marker exists with
age under 10 minutes performs no actions at all and leaves the filesystem
state unchanged. -/
theorem cycle_update_marker_fresh_no_recovery (env : HelperEnv) (fs : HelperFs)
    (t : Nat) (hm : fs.updateMarker = some t) (hba : t ≤ env.now)
    (ha : env.now < 2 ^ 64) (hage : env.now - t < 10 * 60 * 10000000) :
    PerformCheck env fs = (fs, []) := by
  have hsub : sub64 env.now t = env.now - t := sub64_eq_sub env.now t hba ha
  have hc : ¬ sub64 env.now t / (10000000 * 60) > UPDATE_LOCK_TIMEOUT_MINUTES := by
    rw [hsub]; unfold UPDATE_LOCK_TIMEOUT_MINUTES; omega
  have hupd : IsUpdateInProgress env.now fs = (true, fs, []) := by
    unfold IsUpdateInProgress
    rw [hm]
    simp [hc]
  simp [PerformCheck, hupd]

/-- Claim C9, witness: a concrete cycle under a 9-minute-old update
marker. -/
theorem cycle_update_marker_fresh_no_recovery_witness :
    PerformCheck
      { now := 5400000000, procList := [], appMutexHeld := false, exeExists := true,
        launchSucceeds := true, procListAfter := [], appMutexHeldAfter := false }
      { updateMarker := some 0, restartMarker := none } =
      ({ updateMarker := some 0, restartMarker := none }, []) :=
  cycle_update_marker_fresh_no_recovery
    { now := 5400000000, procList := [], appMutexHeld := false, exeExists := true,
      launchSucceeds := true, procListAfter := [], appMutexHeldAfter := false }
    { updateMarker := some 0, restartMarker := none } 0 rfl (by decide) (by decide)
    (by decide)

/-! ### Claim C1 -/

/-- Claim C1, counterexample to the claim as stated: with no marker
present, no installer running and the app absent, but the main executable
missing from disk, the cycle performs one restart-marker create and one
removal yet zero launch attempts — the claim demands exactly one. -/
theorem recovery_cycle_no_exe_no_launch :
    (IsUpdateInProgress 0 { updateMarker := none, restartMarker := none }).1 = false ∧
    (IsRestartPending 0 { updateMarker := none, restartMarker := none }).1 = false ∧
    IsInstallerRunning [] = false ∧
    IsAppRunning false [] = false ∧
    ¬ ((PerformCheck
        { now := 0, procList := [], appMutexHeld := false, exeExists := false,
          launchSucceeds := false, procListAfter := [], appMutexHeldAfter := false }
        { updateMarker := none, restartMarker := none }).2.count
          HelperEvent.launchAttempt = 1) := by
  refine ⟨rfl, rfl, rfl, rfl, ?_⟩
  decide

/-- Claim C1 (amended): a cycle with no active update marker, no active
restart marker, no installer running and the app not detected performs
exactly one restart-marker create and exactly one restart-marker removal,
and exactly one launch attempt when the main executable is present on
disk (regardless of whether the launch succeeds) but zero launch attempts
when the executable is missing. -/
theorem recovery_cycle_marker_and_launch_counts (env : HelperEnv) (fs : HelperFs)
    (hu : (IsUpdateInProgress env.now fs).1 = false)
    (hr : (IsRestartPending env.now fs).1 = false)
    (hi : IsInstallerRunning env.procList = false)
    (ha : IsAppRunning env.appMutexHeld env.procList = false) :
    (PerformCheck env fs).2.count HelperEvent.createRestartLock = 1 ∧
    (PerformCheck env fs).2.count HelperEvent.removeRestartLock = 1 ∧
    (PerformCheck env fs).2.count HelperEvent.launchAttempt =
      (if env.exeExists then 1 else 0) := by
  have hr' : (IsRestartPending env.now (IsUpdateInProgress env.now fs).2.1).1 = false := by
    rw [IsRestartPending_fst_congr env.now _ fs (IsUpdateInProgress_restartMarker _ _)]
    exact hr
  have hpc : (PerformCheck env fs).2 =
      (IsUpdateInProgress env.now fs).2.2 ++
      (IsRestartPending env.now (IsUpdateInProgress env.now fs).2.1).2.2 ++
      (RecoverApp env (IsRestartPending env.now (IsUpdateInProgress env.now fs).2.1).2.1).2 := by
    simp [PerformCheck, hu, hr', hi, ha]
  rw [hpc]
  rcases IsUpdateInProgress_trace env.now fs with h1 | h1 <;>
    rcases IsRestartPending_trace env.now (IsUpdateInProgress env.now fs).2.1 with h2 | h2 <;>
    rw [h1, h2] <;>
    rcases hex : env.exeExists with _ | _ <;>
    rcases hls : env.launchSucceeds with _ | _ <;>
    simp [RecoverApp, CreateRestartLock, RemoveRestartLock, hex, hls, List.count_append]

/-- Claim C1, witness: the amended theorem applied to a cycle with the
executable present and the launch failing. -/
theorem recovery_cycle_marker_and_launch_counts_witness :
    (PerformCheck
      { now := 0, procList := [], appMutexHeld := false, exeExists := true,
        launchSucceeds := false, procListAfter := [], appMutexHeldAfter := false }
      { updateMarker := none, restartMarker := none }).2.count
        HelperEvent.createRestartLock = 1 ∧
    (PerformCheck
      { now := 0, procList := [], appMutexHeld := false, exeExists := true,
        launchSucceeds := false, procListAfter := [], appMutexHeldAfter := false }
      { updateMarker := none, restartMarker := none }).2.count
        HelperEvent.removeRestartLock = 1 ∧
    (PerformCheck
      { now := 0, procList := [], appMutexHeld := false, exeExists := true,
        launchSucceeds := false, procListAfter := [], appMutexHeldAfter := false }
      { updateMarker := none, restartMarker := none }).2.count
        HelperEvent.launchAttempt = 1 :=
  recovery_cycle_marker_and_launch_counts
    { now := 0, procList := [], appMutexHeld := false, exeExists := true,
      launchSucceeds := false, procListAfter := [], appMutexHeldAfter := false }
    { updateMarker := none, restartMarker := none } rfl rfl rfl rfl

/-! ### Privacy injector: supporting lemmas -/

theorem alookup_aset_self {α β : Type} [DecidableEq α] (m : List (α × β)) (k : α)
    (v : β) : alookup (aset m k v) k = some v := by
  induction m with
  | nil => simp [aset, alookup]
  | cons p rest ih =>
    rcases p with ⟨k0, v0⟩
    unfold aset
    by_cases h : k0 = k <;> simp [h, alookup, ih]

theorem alookup_aset_other {α β : Type} [DecidableEq α] (m : List (α × β))
    (k k' : α) (v : β) (hne : k' ≠ k) :
    alookup (aset m k v) k' = alookup m k' := by
  induction m with
  | nil =>
    simp only [aset, alookup]
    rw [if_neg fun h => hne h.symm]
  | cons p rest ih =>
    rcases p with ⟨k0, v0⟩
    unfold aset
    by_cases h : k0 = k
    · subst h
      simp only [if_pos rfl, alookup]
      rw [if_neg fun hh => hne hh.symm, if_neg fun hh => hne hh.symm]
    · simp only [if_neg h, alookup]
      by_cases h2 : k0 = k'
      · simp [h2]
      · simp [h2, ih]

theorem alookup_mem_of_nodup {α β : Type} [DecidableEq α] (m : List (α × β))
    (k : α) (v : β) (hnd : (m.map Prod.fst).Nodup) (hmem : (k, v) ∈ m) :
    alookup m k = some v := by
  induction m with
  | nil => cases hmem
  | cons p rest ih =>
    rcases p with ⟨k0, v0⟩
    rcases List.mem_cons.mp hmem with heq | hmem'
    · obtain ⟨h1, h2⟩ := Prod.mk.injEq k v k0 v0 ▸ heq
      subst h1
      subst h2
      simp [alookup]
    · have hk : k0 ≠ k := by
        intro h
        subst h
        exact (List.nodup_cons.mp hnd).1
          (List.mem_map.mpr ⟨(k0, v), hmem', rfl⟩)
      simp only [alookup, if_neg hk]
      exact ih (List.nodup_cons.mp hnd).2 hmem'

theorem InjectDll_hidden (env : IEnv) (st : IState) (pid : Nat) :
    (InjectDll env st pid).2.1.hidden_process_names = st.hidden_process_names := by
  unfold InjectDll
  repeat' split
  all_goals try rfl
  all_goals
    dsimp only
    split <;> rfl

theorem CallSetWindowVisibility_hidden (env : IEnv) (st : IState) (pid hwnd : Nat)
    (hide : Bool) :
    (CallSetWindowVisibility env st pid hwnd hide).2.1.hidden_process_names =
      st.hidden_process_names := by
  unfold CallSetWindowVisibility
  dsimp only
  repeat' split
  all_goals simp [InjectDll_hidden]

theorem HideProcessWindowsByPid_hidden (env : IEnv) (st : IState) (pid : Nat)
    (hide : Bool) :
    (HideProcessWindowsByPid env st pid hide).2.1.hidden_process_names =
      st.hidden_process_names := by
  unfold HideProcessWindowsByPid
  dsimp only
  split <;> simp [CallSetWindowVisibility_hidden]

theorem hideFold_hidden (env : IEnv) (hide : Bool) (pids : List Nat) :
    ∀ acc : Nat × IState × List IAct,
      (List.foldl (hideStep env hide) acc pids).2.1.hidden_process_names =
        acc.2.1.hidden_process_names := by
  induction pids with
  | nil => intro acc; rfl
  | cons p ps ih =>
    intro acc
    rw [List.foldl_cons, ih]
    simp [hideStep, HideProcessWindowsByPid_hidden]

theorem hideFold_id (env : IEnv) (hide : Bool) (pids : List Nat)
    (hwin : ∀ pid ∈ pids, env.windows pid = []) :
    ∀ acc : Nat × IState × List IAct,
      List.foldl (hideStep env hide) acc pids = acc := by
  induction pids with
  | nil => intro acc; rfl
  | cons p ps ih =>
    intro acc
    have hstep : hideStep env hide acc p = acc := by
      unfold hideStep HideProcessWindowsByPid GetProcessWindows
      rw [hwin p (List.mem_cons_self p ps)]
      rcases acc with ⟨n, s, a⟩
      simp
    rw [List.foldl_cons, hstep]
    exact ih (fun q hq => hwin q (List.mem_cons_of_mem _ hq)) acc

theorem HideProcessWindows_hidden_eq (env : IEnv) (st : IState) (name : List Char)
    (flag : Bool) :
    (HideProcessWindows env st name flag).2.1.hidden_process_names =
      (if (HideProcessWindows env st name flag).1 > 0 then
        aset st.hidden_process_names (ToLowerCase name) flag
      else st.hidden_process_names) := by
  unfold HideProcessWindows
  by_cases hinit : st.initialized = false
  · simp [hinit]
  · rw [if_neg hinit]
    dsimp only
    split <;> simp [hideFold_hidden]

theorem HideProcessWindows_hidden_other (env : IEnv) (st : IState) (name : List Char)
    (flag : Bool) (k : List Char) (hk : k ≠ ToLowerCase name) :
    alookup (HideProcessWindows env st name flag).2.1.hidden_process_names k =
      alookup st.hidden_process_names k := by
  rw [HideProcessWindows_hidden_eq]
  split
  · exact alookup_aset_other _ _ _ _ hk
  · rfl

theorem HideProcessWindows_trace_head (env : IEnv) (st : IState) (name : List Char)
    (flag : Bool) :
    ∃ rest, (HideProcessWindows env st name flag).2.2 = IAct.call name flag :: rest := by
  unfold HideProcessWindows
  by_cases hinit : st.initialized = false
  · rw [if_pos hinit]
    exact ⟨[], rfl⟩
  · rw [if_neg hinit]
    exact ⟨_, rfl⟩

/-! ### Concrete environments and states used to instantiate theorems -/

/-- An environment in which every OS operation fails and every snapshot is
empty. -/
def envZero : IEnv :=
  { procTable := [], windows := fun _ => [], openOk := fun _ => false,
    allocOk := fun _ => false, writeOk := fun _ => false, loadLibraryAddr := none,
    createThreadOk := fun _ => false, loadWaitTimesOut := fun _ => false,
    loadExitCode := fun _ => 0, targetModules := fun _ => [],
    callOpenOk := fun _ => false, localLoadBase := none, localHideAllAddr := none,
    callCreateThreadOk := fun _ => false, callWaitTimesOut := fun _ => false,
    callExitCode := fun _ => 0 }

/-- An environment in which process 5 ("target.exe") has one visible
window and every OS operation succeeds promptly. -/
def envHappy : IEnv :=
  { procTable := [(5, "target.exe".data)], windows := fun _ => [100],
    openOk := fun _ => true, allocOk := fun _ => true, writeOk := fun _ => true,
    loadLibraryAddr := some 7000, createThreadOk := fun _ => true,
    loadWaitTimesOut := fun _ => false, loadExitCode := fun _ => 4096,
    targetModules := fun _ => [("c:/x/privacy_payload.dll".data, 4096)],
    callOpenOk := fun _ => true, localLoadBase := some 1000,
    localHideAllAddr := some 1400, callCreateThreadOk := fun _ => true,
    callWaitTimesOut := fun _ => false, callExitCode := fun _ => 2 }

/-- A quiescent initialized controller state. -/
def stReady : IState :=
  { payload_dll_path := "privacy_payload.dll".data, injected_processes := [],
    hidden_process_names := [], initialized := true }

/-- An uninitialized controller state. -/
def stFresh : IState :=
  { payload_dll_path := [], injected_processes := [],
    hidden_process_names := [], initialized := false }

/-! ### Claim C8 -/

/-- Claim C8: a second injection request against a process that already
has an injection record returns success immediately, leaves the state
(including the injection-record map) unchanged, and performs no OS
action: no process open, no remote allocation, no remote thread. -/
theorem inject_idempotent (env : IEnv) (st : IState) (pid base : Nat)
    (hpath : st.payload_dll_path.isEmpty = false)
    (hrec : alookup st.injected_processes pid = some base) :
    InjectDll env st pid = (true, st, []) := by
  unfold InjectDll
  rw [hpath, hrec]
  rfl

/-- Claim C8, witness: a state holding a record for PID 7. -/
theorem inject_idempotent_witness :
    InjectDll envZero
      { payload_dll_path := "privacy_payload.dll".data,
        injected_processes := [(7, 42)], hidden_process_names := [],
        initialized := true } 7 =
      (true,
        { payload_dll_path := "privacy_payload.dll".data,
          injected_processes := [(7, 42)], hidden_process_names := [],
          initialized := true }, []) :=
  inject_idempotent envZero
    { payload_dll_path := "privacy_payload.dll".data,
      injected_processes := [(7, 42)], hidden_process_names := [],
      initialized := true } 7 42 rfl rfl

/-! ### Claim C10 -/

/-- Claim C10: when the controller is uninitialized, the public hide/show
operation returns 0 and leaves the state — in particular the hidden-state
map and the injection-record map — unchanged, attempting no OS action. -/
theorem hide_uninitialized_noop (env : IEnv) (st : IState) (processName : List Char)
    (hide : Bool) (h : st.initialized = false) :
    HideProcessWindows env st processName hide =
      (0, st, [IAct.call processName hide]) := by
  unfold HideProcessWindows
  rw [if_pos h]

/-- Claim C10, witness: the uninitialized state. -/
theorem hide_uninitialized_noop_witness :
    HideProcessWindows envZero stFresh "notepad".data true =
      (0, stFresh, [IAct.call "notepad".data true]) :=
  hide_uninitialized_noop envZero stFresh "notepad".data true rfl

/-! ### Claim C3 -/

/-- Claim C3: when every process resolved from the name has zero visible
windows, the hide operation returns an affected count of 0 and leaves the
state unchanged, so a name not already tracked is still reported not
hidden afterwards; and whenever a name switches from not-hidden to hidden
across one hide/show call, that call reported an affected count of at
least one and was a hide. -/
theorem hidden_state_requires_affected (env : IEnv) (st : IState) (name : List Char) :
    ((∀ pid ∈ GetProcessIdsByName env.procTable name, env.windows pid = []) →
      (HideProcessWindows env st name true).1 = 0 ∧
      (HideProcessWindows env st name true).2.1 = st ∧
      (alookup st.hidden_process_names (ToLowerCase name) = none →
        IsProcessHidden (HideProcessWindows env st name true).2.1 name = false)) ∧
    (∀ flag : Bool, IsProcessHidden st name = false →
      IsProcessHidden (HideProcessWindows env st name flag).2.1 name = true →
      (HideProcessWindows env st name flag).1 > 0 ∧ flag = true) := by
  constructor
  · intro hwin
    have hmain : HideProcessWindows env st name true = (0, st, [IAct.call name true]) := by
      unfold HideProcessWindows
      by_cases hinit : st.initialized = false
      · rw [if_pos hinit]
      · rw [if_neg hinit]
        dsimp only
        rw [hideFold_id env true _ hwin]
        simp
    refine ⟨by rw [hmain], by rw [hmain], ?_⟩
    intro hnone
    rw [hmain]
    unfold IsProcessHidden
    rw [hnone]
  · intro flag hfalse htrue
    by_cases hpos : (HideProcessWindows env st name flag).1 > 0
    · refine ⟨hpos, ?_⟩
      unfold IsProcessHidden at htrue
      rw [HideProcessWindows_hidden_eq, if_pos hpos, alookup_aset_self] at htrue
      exact htrue
    · exfalso
      unfold IsProcessHidden at htrue hfalse
      rw [HideProcessWindows_hidden_eq, if_neg hpos] at htrue
      rw [htrue] at hfalse
      exact Bool.true_eq_false ▸ hfalse

/-- Claim C3, witness: part one applied to a process with no windows, part
two applied to a successful hide of "target". -/
theorem hidden_state_requires_affected_witness :
    ((HideProcessWindows { envHappy with windows := fun _ => [] } stReady
        "target".data true).1 = 0 ∧
      (HideProcessWindows { envHappy with windows := fun _ => [] } stReady
        "target".data true).2.1 = stReady ∧
      IsProcessHidden (HideProcessWindows { envHappy with windows := fun _ => [] }
        stReady "target".data true).2.1 "target".data = false) ∧
    ((HideProcessWindows envHappy stReady "target".data true).1 > 0 ∧ true = true) := by
  constructor
  · have h := (hidden_state_requires_affected
      { envHappy with windows := fun _ => [] } stReady "target".data).1
      (by intro pid _; rfl)
    exact ⟨h.1, h.2.1, h.2.2 rfl⟩
  · exact (hidden_state_requires_affected envHappy stReady "target".data).2 true
      rfl (by decide)

/-! ### Claim C4 -/

/-- Claim C4: demonstration of the divergence on the code. When the
5-second wait on the remotely created thread times out, GetExitCodeThread
reports STILL_ACTIVE (259); the code does not check the wait result, so
injection treats 259 as a valid remote module base, records it, and
returns success, and the hide/show remote call treats 259 as a positive
affected-window count and returns success — where the claim (and the
spec) require both to fail with no record created. -/
theorem wait_timeout_reported_as_success :
    (InjectDll
      { envHappy with loadWaitTimesOut := fun _ => true, callWaitTimesOut := fun _ => true }
      stReady 5).1 = true ∧
    alookup (InjectDll
      { envHappy with loadWaitTimesOut := fun _ => true, callWaitTimesOut := fun _ => true }
      stReady 5).2.1.injected_processes 5 = some STILL_ACTIVE ∧
    (CallSetWindowVisibility
      { envHappy with loadWaitTimesOut := fun _ => true, callWaitTimesOut := fun _ => true }
      stReady 5 100 true).1 = true := by
  refine ⟨rfl, rfl, ?_⟩
  decide

/-! ### Claim C5 -/

/-- Claim C5, counterexample to the claim as stated: with an injection
record mapping PID 5 to base 999 while module enumeration of the target
finds the payload at base 4096, the remote thread is started at
4096 + offset (4496), not at the recorded base 999 + offset (1399): the
InjectionRecord base is not used to compute the call address. -/
theorem remote_call_ignores_record :
    alookup ({ stReady with injected_processes := [(5, 999)] } : IState).injected_processes
      5 = some 999 ∧
    IAct.createRemoteThread 5 4496 ∈
      (CallSetWindowVisibility envHappy { stReady with injected_processes := [(5, 999)] }
        5 100 true).2.2 ∧
    ¬ IAct.createRemoteThread 5 ((999 + sub64 1400 1000) % 2 ^ 64) ∈
      (CallSetWindowVisibility envHappy { stReady with injected_processes := [(5, 999)] }
        5 100 true).2.2 := by
  refine ⟨rfl, ?_, ?_⟩ <;> decide

/-- Claim C5 (amended): for every hide/show remote call that reaches
remote-thread creation, the address at which the remote thread is started
equals the base of the payload module found by enumerating the target's
modules (the first whose file name contains the payload file name) plus
the byte offset of the entry point computed from a fresh local load; the
base recorded in the InjectionRecord is not consulted for this address. -/
theorem remote_call_address (env : IEnv) (st : IState) (pid hwnd : Nat) (hide : Bool)
    (targetModule : List Char × Nat) (localDll localHideAll : Nat)
    (hinj : (InjectDll env st pid).1 = true)
    (hopen : env.callOpenOk pid = true)
    (hfind : (env.targetModules pid).find?
      (fun m => containsW m.1 PAYLOAD_DLL_NEEDLE) = some targetModule)
    (hlb : env.localLoadBase = some localDll)
    (hla : env.localHideAllAddr = some localHideAll)
    (hct : env.callCreateThreadOk pid = true) :
    ∃ pre, (CallSetWindowVisibility env st pid hwnd hide).2.2 =
      pre ++ [IAct.openProcess pid,
        IAct.createRemoteThread pid
          ((targetModule.2 + sub64 localHideAll localDll) % 2 ^ 64)] := by
  refine ⟨(InjectDll env st pid).2.2, ?_⟩
  unfold CallSetWindowVisibility
  dsimp only
  rw [hinj, hfind, hlb, hla, hopen, hct]
  simp

/-- Claim C5, witness: the amended theorem applied to the concrete
record/enumeration scenario of the counterexample. -/
theorem remote_call_address_witness :
    ∃ pre, (CallSetWindowVisibility envHappy
      { stReady with injected_processes := [(5, 999)] } 5 100 true).2.2 =
      pre ++ [IAct.openProcess 5, IAct.createRemoteThread 5 4496] :=
  remote_call_address envHappy { stReady with injected_processes := [(5, 999)] }
    5 100 true ("c:/x/privacy_payload.dll".data, 4096) 1000 1400
    rfl rfl (by decide) rfl rfl rfl

/-! ### Claim C6 -/

/-- Invariant of RestoreAll's fold: the accumulated trace only grows, and
every key whose entry is currently marked hidden when its turn comes gets
a show re-invocation recorded; keys are pairwise distinct and lower-cased,
so processing one key leaves the entries of the others untouched. -/
theorem restore_fold_spec (env : IEnv) (keys : List (List Char)) :
    ∀ acc : IState × List IAct, keys.Nodup → (∀ k ∈ keys, ToLowerCase k = k) →
    (∀ a ∈ acc.2, a ∈ (List.foldl (restoreStep env) acc keys).2) ∧
    (∀ k ∈ keys, alookup acc.1.hidden_process_names k = some true →
      IAct.call k false ∈ (List.foldl (restoreStep env) acc keys).2) := by
  induction keys with
  | nil =>
    intro acc _ _
    exact ⟨fun a ha => ha, fun k hk => absurd hk (List.not_mem_nil k)⟩
  | cons k ks ih =>
    intro acc hnd hlow
    have hnd' := (List.nodup_cons.mp hnd).2
    have hknotin := (List.nodup_cons.mp hnd).1
    have hlow' : ∀ x ∈ ks, ToLowerCase x = x :=
      fun x hx => hlow x (List.mem_cons_of_mem _ hx)
    have hlowk : ToLowerCase k = k := hlow k (List.mem_cons_self k ks)
    obtain ⟨ihmono, ihmem⟩ := ih (restoreStep env acc k) hnd' hlow'
    have hmono2 : ∀ a ∈ acc.2, a ∈ (restoreStep env acc k).2 := by
      intro a ha
      unfold restoreStep
      split
      · exact List.mem_append_left _ ha
      · exact ha
    rw [List.foldl_cons]
    refine ⟨fun a ha => ihmono a (hmono2 a ha), ?_⟩
    intro k' hk' hsome
    rcases List.mem_cons.mp hk' with heq | hmem'
    · subst heq
      have hin : IAct.call k' false ∈ (restoreStep env acc k').2 := by
        unfold restoreStep
        rw [if_pos hsome]
        dsimp only
        obtain ⟨rest, hr⟩ := HideProcessWindows_trace_head env acc.1 k' false
        rw [hr]
        exact List.mem_append_right _ (List.mem_cons_self _ _)
      exact ihmono _ hin
    · have hne : k' ≠ ToLowerCase k := by
        rw [hlowk]
        intro h
        exact hknotin (h ▸ hmem')
      have hpres : alookup (restoreStep env acc k).1.hidden_process_names k' =
          alookup acc.1.hidden_process_names k' := by
        unfold restoreStep
        split
        · exact HideProcessWindows_hidden_other env acc.1 k false k' hne
        · rfl
      exact ihmem k' hmem' (hpres ▸ hsome)

/-- Claim C6: RestoreAll re-invokes the show operation for every name
currently marked hidden (given the representation invariants the code
maintains: distinct, lower-cased keys), then clears both tracked maps, so
an immediately following listing of hidden processes is empty. -/
theorem restore_all_clears (env : IEnv) (st : IState)
    (hnd : (st.hidden_process_names.map Prod.fst).Nodup)
    (hlow : ∀ p ∈ st.hidden_process_names, ToLowerCase p.1 = p.1) :
    (∀ p ∈ st.hidden_process_names, p.2 = true →
      IAct.call p.1 false ∈ (RestoreAll env st).2) ∧
    (RestoreAll env st).1.hidden_process_names = [] ∧
    (RestoreAll env st).1.injected_processes = [] ∧
    GetHiddenProcesses (RestoreAll env st).1 = [] := by
  obtain ⟨hmono, hmem⟩ := restore_fold_spec env (st.hidden_process_names.map Prod.fst)
    (st, []) hnd
    (by
      intro k hk
      obtain ⟨p, hp, rfl⟩ := List.mem_map.mp hk
      exact hlow p hp)
  refine ⟨?_, rfl, rfl, rfl⟩
  intro p hp htrue
  have hk : p.1 ∈ st.hidden_process_names.map Prod.fst := List.mem_map_of_mem _ hp
  have hsome : alookup st.hidden_process_names p.1 = some true := by
    rw [← htrue]
    exact alookup_mem_of_nodup _ _ _ hnd hp
  exact hmem p.1 hk hsome

/-- A controller state tracking "alpha" hidden and "beta" shown, with one
injection record. -/
def stTracked : IState :=
  { payload_dll_path := [], injected_processes := [(1, 2)],
    hidden_process_names := [("alpha".data, true), ("beta".data, false)],
    initialized := false }

/-- Claim C6, witness: a state tracking "alpha" hidden and "beta" shown. -/
theorem restore_all_clears_witness :
    (∀ p ∈ stTracked.hidden_process_names, p.2 = true →
      IAct.call p.1 false ∈ (RestoreAll envZero stTracked).2) ∧
    (RestoreAll envZero stTracked).1.hidden_process_names = [] ∧
    (RestoreAll envZero stTracked).1.injected_processes = [] ∧
    GetHiddenProcesses (RestoreAll envZero stTracked).1 = [] :=
  restore_all_clears envZero stTracked (by decide) (by decide)

/-! ### Claim C7 -/

/-- Claim C7: the queries "notepad" and "Notepad.exe" resolve to the same
result set on every process table, because the lookup lower-cases the
query, appends ".exe" when missing, and matches by case-insensitive
substring containment (the equality disjunct in the code is subsumed by
containment) against the executable names. -/
theorem find_process_ids_insensitive :
    (∀ procTable : List (Nat × List Char),
      GetProcessIdsByName procTable "notepad".data =
        GetProcessIdsByName procTable "Notepad.exe".data) ∧
    (∀ (procTable : List (Nat × List Char)) (name : List Char),
      GetProcessIdsByName procTable name =
        (procTable.filter fun entry =>
          containsW (ToLowerCase entry.2) (normalizeProcessName name)).map Prod.fst) := by
  have hself : ∀ l : List Char, containsW l l = true := by
    intro l
    have hpre : ∀ l : List Char, isPrefixOfW l l = true := by
      intro l
      induction l with
      | nil => rfl
      | cons c cs ih => simp [isPrefixOfW, ih]
    cases l with
    | nil => rfl
    | cons c cs => simp [containsW, hpre]
  constructor
  · intro procTable
    have hnorm : normalizeProcessName "notepad".data =
        normalizeProcessName "Notepad.exe".data := by decide
    unfold GetProcessIdsByName
    rw [hnorm]
  · intro procTable name
    unfold GetProcessIdsByName
    dsimp only
    congr 1
    apply List.filter_congr
    intro a _
    by_cases h : ToLowerCase a.2 == normalizeProcessName name
    · have heq : ToLowerCase a.2 = normalizeProcessName name := by
        exact eq_of_beq h
      rw [heq, hself]
      simp [h]
    · simp [h]

end A1Tools
